import Mathlib

/-!
Verification of the `tri_list` container (src/tri_list.h, src/tri_list_concepts.h).

The C++ class `tri_list<T1, T2, T3>` stores a `std::vector<std::variant<T1, T2, T3>>`
together with a tuple of three modifier functions (one per element type,
initialised to `identity`).  We embed it shallowly:

* The three alternative slots of the variant are indexed by `Idx` (`i1`, `i2`,
  `i3`); `Idx.ty α β γ i` is the payload type of slot `i`.
* `Var α β γ` is the tagged union `std::variant<T1, T2, T3>`: a sigma pair of a
  tag and a payload of that tag's type.
* `tri_list α β γ` holds `contents` (the vector) and `mods` (the tuple of
  modifiers, represented as one dependent function from tags).
* The operations `push_back`, `range_over`, `modify_only`, `reset`, and the
  whole-collection traversal realised by `tri_iterator` are translated one by
  one below, next to a citation of the source lines they embed.

The compile-time concepts `my_type` and `one_type` quantify over C++ types
compared with `std::same_as`.  We embed the universe of candidate C++ types as
an arbitrary type `κ` with decidable equality (type codes) and `std::same_as`
as equality of codes, so the concepts become boolean predicates over `κ`.
-/

/-- Tag naming one of the three alternative types of the triple. -/
inductive Idx : Type where
  | i1
  | i2
  | i3
deriving DecidableEq

/-- The payload type selected by a tag: `T1` for `i1`, `T2` for `i2`, `T3` for `i3`.
Reducible so that elaboration sees the payload type of a concrete tag. -/
@[reducible]
def Idx.ty (α β γ : Type) : Idx → Type
  | .i1 => α
  | .i2 => β
  | .i3 => γ

/-- The tagged union `std::variant<T1, T2, T3>` (alias `var_t`, tri_list.h line 65):
a tag together with a payload of the tag's type. -/
def Var (α β γ : Type) : Type := Σ i : Idx, Idx.ty α β γ i

/-- `std::get<T>(v)` guarded by the runtime tag check (`std::get` succeeds exactly
when the variant currently holds alternative `i`). -/
def Var.getOpt (i : Idx) {α β γ : Type} (v : Var α β γ) : Option (Idx.ty α β γ i) :=
  if h : v.1 = i then some (h ▸ v.2) else none

/-- The boolean test performed by `type_filter`/`var_filter` inside `range_over`
(tri_list.h lines 116-122): `std::visit` of a lambda answering whether the
element's active alternative is `T`, i.e. whether the tag equals `i`. -/
def type_filter (i : Idx) {α β γ : Type} (v : Var α β γ) : Bool :=
  decide (v.1 = i)

/-- `identity` (tri_list.h lines 55-59): the identity function for any type. -/
def identity {T : Type} (t : T) : T := t

/-- `compose` (tri_list.h lines 46-52): `compose(f2, f1)` applied to `x`
evaluates to `f2(f1(x))`. -/
def compose {T : Type} (f2 f1 : T → T) : T → T :=
  fun x => f2 (f1 x)

/-- `my_type` (tri_list.h lines 23-25): `T` is the same as at least one of
`T1`, `T2`, `T3`.  Candidate C++ types are embedded as codes in `κ`,
`std::same_as` as decidable equality of codes. -/
def my_type {κ : Type} [DecidableEq κ] (T T1 T2 T3 : κ) : Bool :=
  decide (T = T1) || decide (T = T2) || decide (T = T3)

/-- `one_type` (tri_list.h lines 33-37): `T` is one of `T1`, `T2`, `T3` but not
zero and not more than one of them.  The three disjuncts appear in the source
order (the `T1` clause, then the `T3` clause, then the `T2` clause). -/
def one_type {κ : Type} [DecidableEq κ] (T T1 T2 T3 : κ) : Bool :=
  (decide (T = T1) && !decide (T = T2) && !decide (T = T3)) ||
  (decide (T = T3) && !decide (T = T2) && !decide (T = T1)) ||
  (decide (T = T2) && !decide (T = T1) && !decide (T = T3))

/-- The requirement imposed by the class template `tri_list` itself on its
three type parameters at the collection's definition (tri_list.h lines 62-63):
the template head `template <typename T1, typename T2, typename T3> class
tri_list` carries no requires-clause and no other constraint, so every triple
of types is accepted at definition time; only the member functions are gated
(each by `requires one_type<T, T1, T2, T3>`). -/
def tri_list_class_requires {κ : Type} (_T1 _T2 _T3 : κ) : Prop := True

/-- The state of a `tri_list<T1, T2, T3>` object: the `contents` vector
(tri_list.h line 74) and the `mods` tuple of per-type modifiers (lines 78-80),
represented as a single dependent function from tags to modifiers. -/
structure tri_list (α β γ : Type) : Type where
  contents : List (Var α β γ)
  mods : (i : Idx) → Idx.ty α β γ i → Idx.ty α β γ i

/-- The default constructor `tri_list()` (line 99) together with the default
member initialiser of `mods` (lines 78-80): empty contents, every modifier
`identity`. -/
def tri_list.init (α β γ : Type) : tri_list α β γ :=
  ⟨[], fun _ => identity⟩

/-- The initializer-list constructor (line 102): given contents, modifiers
start as `identity` from the default member initialiser. -/
def tri_list.ofList {α β γ : Type} (vs : List (Var α β γ)) : tri_list α β γ :=
  ⟨vs, fun _ => identity⟩

/-- `get_mod<T>()` (lines 84-95): the current modifier for slot `i`. -/
def tri_list.get_mod {α β γ : Type} (l : tri_list α β γ) (i : Idx) :
    Idx.ty α β γ i → Idx.ty α β γ i :=
  l.mods i

/-- `push_back<T>(t)` (lines 106-110): append `var_t(t)` to `contents`.
The modifiers are untouched. -/
def tri_list.push_back {α β γ : Type} (i : Idx) (t : Idx.ty α β γ i)
    (l : tri_list α β γ) : tri_list α β γ :=
  { l with contents := l.contents ++ [⟨i, t⟩] }

/-- `range_over<T>()` (lines 113-129): filter `contents` by `var_filter` (keep
the elements whose active alternative is `T`), then transform each survivor by
`get_mod<T>()(std::get<T>(v))`.  The extraction `std::get<T>` is partial on an
arbitrary variant, hence `Option`-valued here; on the filtered elements it
always succeeds, so the filter-then-transform pipeline loses nothing. -/
def tri_list.range_over {α β γ : Type} (i : Idx) (l : tri_list α β γ) :
    List (Idx.ty α β γ i) :=
  (l.contents.filter (type_filter i)).filterMap
    (fun v => (Var.getOpt i v).map (l.get_mod i))

/-- `modify_only<T>(m)` (lines 133-138): overwrite slot `i`'s modifier with
`compose<T>(m, mod)` where `mod` is its previous value, so the new modifier
maps `x` to `m(mod(x))`. -/
def tri_list.modify_only {α β γ : Type} (i : Idx)
    (m : Idx.ty α β γ i → Idx.ty α β γ i) (l : tri_list α β γ) : tri_list α β γ :=
  { l with mods := Function.update l.mods i (compose m (l.mods i)) }

/-- `reset<T>()` (lines 142-146): overwrite slot `i`'s modifier with `identity`. -/
def tri_list.reset {α β γ : Type} (i : Idx) (l : tri_list α β γ) : tri_list α β γ :=
  { l with mods := Function.update l.mods i identity }

/-- One dereference of `tri_iterator::operator*` (lines 168-175): `std::visit`
the element, apply the modifier of its own active type, and rebuild a variant
with the same alternative. -/
def tri_list.deref {α β γ : Type} (l : tri_list α β γ) (v : Var α β γ) :
    Var α β γ :=
  ⟨v.1, l.get_mod v.1 v.2⟩

/-- The whole-collection traversal from `begin()` to `end()` (lines 182-219):
walk `contents` in order, dereferencing each element through
`tri_iterator::operator*`. -/
def tri_list.elems {α β γ : Type} (l : tri_list α β γ) : List (Var α β γ) :=
  l.contents.map l.deref

/-- A sequence of `push_back` calls, in order. -/
def tri_list.pushAll {α β γ : Type} (vs : List (Var α β γ))
    (l : tri_list α β γ) : tri_list α β γ :=
  vs.foldl (fun acc v => acc.push_back v.1 v.2) l

/-- A sequence of `modify_only<T>` calls on the same slot `i`, in order. -/
def tri_list.registerAll {α β γ : Type} (i : Idx)
    (fs : List (Idx.ty α β γ i → Idx.ty α β γ i)) (l : tri_list α β γ) :
    tri_list α β γ :=
  fs.foldl (fun acc f => acc.modify_only i f) l

/-- Applying a pipeline of modifiers `[f1, ..., fn]` left to right:
`x` goes to `fn(...f2(f1(x))...)`. -/
def applyPipe {T : Type} (fs : List (T → T)) (x : T) : T :=
  fs.foldl (fun v f => f v) x

/-- The values of the inserted elements whose active type is `i`, in their
relative insertion order, untransformed — the spec's "subset of inserted
T-typed elements". -/
def values_of_type (i : Idx) {α β γ : Type} (vs : List (Var α β γ)) :
    List (Idx.ty α β γ i) :=
  vs.filterMap (Var.getOpt i)

/-- The spec's distinctness requirement on the triple:
"no two of T1, T2, T3 are the same type". -/
def distinct_triple {κ : Type} [DecidableEq κ] (T1 T2 T3 : κ) : Bool :=
  decide (T1 ≠ T2) && decide (T1 ≠ T3) && decide (T2 ≠ T3)

/-! ### Frame lemmas, read straight off the operation definitions -/

theorem tri_list.push_back_contents {α β γ : Type} (i : Idx) (t : Idx.ty α β γ i)
    (l : tri_list α β γ) :
    (l.push_back i t).contents = l.contents ++ [⟨i, t⟩] := rfl

theorem tri_list.push_back_mods {α β γ : Type} (i : Idx) (t : Idx.ty α β γ i)
    (l : tri_list α β γ) :
    (l.push_back i t).mods = l.mods := rfl

theorem tri_list.modify_only_contents {α β γ : Type} (i : Idx)
    (m : Idx.ty α β γ i → Idx.ty α β γ i) (l : tri_list α β γ) :
    (l.modify_only i m).contents = l.contents := rfl

theorem tri_list.reset_contents {α β γ : Type} (i : Idx) (l : tri_list α β γ) :
    (l.reset i).contents = l.contents := rfl

theorem tri_list.modify_only_mods_self {α β γ : Type} (i : Idx)
    (m : Idx.ty α β γ i → Idx.ty α β γ i) (l : tri_list α β γ) :
    (l.modify_only i m).mods i = compose m (l.mods i) := by
  simp [tri_list.modify_only]

theorem tri_list.modify_only_mods_ne {α β γ : Type} {i j : Idx} (h : j ≠ i)
    (m : Idx.ty α β γ i → Idx.ty α β γ i) (l : tri_list α β γ) :
    (l.modify_only i m).mods j = l.mods j := by
  simp [tri_list.modify_only, Function.update_noteq h]

theorem tri_list.reset_mods_self {α β γ : Type} (i : Idx) (l : tri_list α β γ) :
    (l.reset i).mods i = identity := by
  simp [tri_list.reset]

theorem tri_list.reset_mods_ne {α β γ : Type} {i j : Idx} (h : j ≠ i)
    (l : tri_list α β γ) :
    (l.reset i).mods j = l.mods j := by
  simp [tri_list.reset, Function.update_noteq h]

/-! ### Sequences of calls -/

theorem tri_list.pushAll_contents {α β γ : Type} (vs : List (Var α β γ))
    (l : tri_list α β γ) :
    (l.pushAll vs).contents = l.contents ++ vs := by
  induction vs generalizing l with
  | nil => simp [tri_list.pushAll]
  | cons v vs ih =>
    show (tri_list.pushAll vs (l.push_back v.1 v.2)).contents = _
    rw [ih]
    simp [tri_list.push_back]

theorem tri_list.pushAll_mods {α β γ : Type} (vs : List (Var α β γ))
    (l : tri_list α β γ) :
    (l.pushAll vs).mods = l.mods := by
  induction vs generalizing l with
  | nil => rfl
  | cons v vs ih =>
    show (tri_list.pushAll vs (l.push_back v.1 v.2)).mods = _
    rw [ih]
    rfl

theorem tri_list.registerAll_contents {α β γ : Type} (i : Idx)
    (fs : List (Idx.ty α β γ i → Idx.ty α β γ i)) (l : tri_list α β γ) :
    (l.registerAll i fs).contents = l.contents := by
  induction fs generalizing l with
  | nil => rfl
  | cons f fs ih =>
    show (tri_list.registerAll i fs (l.modify_only i f)).contents = _
    rw [ih]
    rfl

theorem tri_list.registerAll_mods_self {α β γ : Type} (i : Idx)
    (fs : List (Idx.ty α β γ i → Idx.ty α β γ i)) (l : tri_list α β γ) :
    (l.registerAll i fs).mods i = fun x => applyPipe fs (l.mods i x) := by
  induction fs generalizing l with
  | nil => rfl
  | cons f fs ih =>
    show (tri_list.registerAll i fs (l.modify_only i f)).mods i = _
    rw [ih]
    funext x
    simp [tri_list.modify_only, applyPipe, compose]

theorem tri_list.registerAll_mods_ne {α β γ : Type} {i j : Idx} (h : j ≠ i)
    (fs : List (Idx.ty α β γ i → Idx.ty α β γ i)) (l : tri_list α β γ) :
    (l.registerAll i fs).mods j = l.mods j := by
  induction fs generalizing l with
  | nil => rfl
  | cons f fs ih =>
    show (tri_list.registerAll i fs (l.modify_only i f)).mods j = _
    rw [ih, tri_list.modify_only_mods_ne h]

/-! ### Characterising the read paths -/

theorem Var.getOpt_eq_some {α β γ : Type} {i : Idx} {v : Var α β γ} (h : v.1 = i) :
    Var.getOpt i v = some (h ▸ v.2) := by
  simp [Var.getOpt, h]

theorem Var.getOpt_eq_none {α β γ : Type} {i : Idx} {v : Var α β γ} (h : v.1 ≠ i) :
    Var.getOpt i v = none := by
  simp [Var.getOpt, h]

theorem filter_then_extract {α β γ : Type} (i : Idx)
    (g : Idx.ty α β γ i → Idx.ty α β γ i) (vs : List (Var α β γ)) :
    (vs.filter (type_filter i)).filterMap (fun v => (Var.getOpt i v).map g)
      = (vs.filterMap (Var.getOpt i)).map g := by
  induction vs with
  | nil => rfl
  | cons v vs ih =>
    by_cases h : v.1 = i
    · simp [List.filter_cons, List.filterMap_cons, type_filter, h,
        Var.getOpt_eq_some h, ih]
    · simp [List.filter_cons, List.filterMap_cons, type_filter, h,
        Var.getOpt_eq_none h, ih]

theorem tri_list.range_over_eq {α β γ : Type} (i : Idx) (l : tri_list α β γ) :
    l.range_over i = (values_of_type i l.contents).map (l.mods i) :=
  filter_then_extract i (l.mods i) l.contents

theorem Var.getOpt_mk_self {α β γ : Type} (i : Idx) (v : Idx.ty α β γ i) :
    Var.getOpt i ⟨i, v⟩ = some v := by
  simp [Var.getOpt]

theorem values_of_type_append {α β γ : Type} (i : Idx) (vs ws : List (Var α β γ)) :
    values_of_type i (vs ++ ws) = values_of_type i vs ++ values_of_type i ws := by
  simp [values_of_type]

theorem values_of_type_singleton {α β γ : Type} (i : Idx) (v : Var α β γ) :
    values_of_type i [v] = (Var.getOpt i v).toList := by
  cases hov : Var.getOpt i v <;> simp [values_of_type, hov]

theorem map_identity {T : Type} (L : List T) : L.map identity = L := by
  induction L with
  | nil => rfl
  | cons x xs ih => simp [identity, ih]

theorem elems_filterMap {α β γ : Type} (l : tri_list α β γ) (i : Idx)
    (vs : List (Var α β γ)) :
    (vs.map l.deref).filterMap (Var.getOpt i)
      = (vs.filterMap (Var.getOpt i)).map (l.mods i) := by
  induction vs with
  | nil => rfl
  | cons v vs ih =>
    by_cases h : v.1 = i
    · subst h
      simp only [List.map_cons, List.filterMap_cons,
        Var.getOpt_eq_some (show (l.deref v).1 = v.1 from rfl),
        Var.getOpt_eq_some (show v.1 = v.1 from rfl)]
      simp [ih, tri_list.deref, tri_list.get_mod]
    · simp only [List.map_cons, List.filterMap_cons,
        Var.getOpt_eq_none (show (l.deref v).1 ≠ i from h),
        Var.getOpt_eq_none h]
      exact ih

/-- A sample list used to instantiate theorems with hypotheses: the spec's own
scenario, triple (int, string, int-like third slot), contents `[3, "a", 5]`. -/
def sample : tri_list Nat String Nat :=
  tri_list.ofList [⟨Idx.i1, 3⟩, ⟨Idx.i2, "a"⟩, ⟨Idx.i1, 5⟩]

/-- C1: starting from an empty pipeline for slot `i` (its modifier is the
identity), registering `f1` then `f2` via `modify_only` and then reading with
`range_over` yields `f2 (f1 x)` for each stored value `x` of that type; in
general a pipeline `[f1, ..., fn]` registered in that order acts on reads as
the left-to-right composition `x ↦ fn (... (f2 (f1 x)))`. -/
theorem C1_pipeline_composition_order {α β γ : Type} (l : tri_list α β γ)
    (i : Idx) (hid : l.mods i = identity)
    (f1 f2 : Idx.ty α β γ i → Idx.ty α β γ i)
    (fs : List (Idx.ty α β γ i → Idx.ty α β γ i)) :
    ((l.modify_only i f1).modify_only i f2).range_over i
      = (values_of_type i l.contents).map (fun x => f2 (f1 x))
    ∧ (l.registerAll i fs).range_over i
      = (values_of_type i l.contents).map (fun x => applyPipe fs x) := by
  constructor
  · rw [tri_list.range_over_eq, tri_list.modify_only_contents,
      tri_list.modify_only_contents, tri_list.modify_only_mods_self,
      tri_list.modify_only_mods_self, hid]
    rfl
  · rw [tri_list.range_over_eq, tri_list.registerAll_contents,
      tri_list.registerAll_mods_self, hid]
    rfl

/-- Witness for C1: on the sample list, registering `(* 10)` then `(+ 1)` on
the first slot reads back every stored value `x` as `x * 10 + 1`. -/
theorem C1_witness :
    (sample.mods Idx.i1 = identity)
    ∧ ((sample.modify_only Idx.i1 (fun n => n * 10)).modify_only Idx.i1
          (fun n => n + 1)).range_over Idx.i1
        = (values_of_type Idx.i1 sample.contents).map (fun x => x * 10 + 1) :=
  ⟨rfl, (C1_pipeline_composition_order sample Idx.i1 rfl
    (fun n => n * 10) (fun n => n + 1) []).1⟩

/-- C2: modifiers bind late.  A value `v` inserted by `push_back` before a
`modify_only i f` call and read afterwards is yielded as `f` applied to its
previous reading (so `f v` when the pipeline was empty), and in general a
read after `modify_only i f` — whether through `range_over` or through the
whole-collection traversal — yields `f` of whatever the same read would have
yielded before the call: the pipeline state at read time, not at insertion
time, is what every read observes. -/
theorem C2_late_binding {α β γ : Type} (l : tri_list α β γ) (i : Idx)
    (f : Idx.ty α β γ i → Idx.ty α β γ i) (v : Idx.ty α β γ i) :
    ((l.push_back i v).modify_only i f).range_over i
      = ((l.range_over i).map f) ++ [f (l.mods i v)]
    ∧ (l.modify_only i f).range_over i = (l.range_over i).map f
    ∧ values_of_type i ((l.modify_only i f).elems)
        = (values_of_type i l.elems).map f := by
  refine ⟨?_, ?_, ?_⟩
  · rw [tri_list.range_over_eq, tri_list.modify_only_contents,
      tri_list.push_back_contents, tri_list.modify_only_mods_self,
      tri_list.push_back_mods, values_of_type_append, values_of_type_singleton,
      Var.getOpt_mk_self, tri_list.range_over_eq, List.map_map]
    simp [compose]
  · rw [tri_list.range_over_eq, tri_list.range_over_eq,
      tri_list.modify_only_contents, tri_list.modify_only_mods_self,
      List.map_map]
    rfl
  · show ((l.modify_only i f).contents.map (l.modify_only i f).deref).filterMap
        (Var.getOpt i) = ((l.contents.map l.deref).filterMap (Var.getOpt i)).map f
    rw [elems_filterMap, elems_filterMap, tri_list.modify_only_contents,
      tri_list.modify_only_mods_self, List.map_map]
    rfl

/-- C3: the compile-time membership check `one_type` — the requires-clause
gating `push_back` (line 107), `range_over` (line 114), `modify_only`
(line 134) and `reset` (line 143) — holds for a candidate type `T` if and
only if `T` equals exactly one of the declared triple `T1, T2, T3` and
differs from the other two; in particular it rejects a foreign type (equal
to none of them) and a type appearing more than once in the triple. -/
theorem C3_one_type_membership {κ : Type} [DecidableEq κ] (T T1 T2 T3 : κ) :
    one_type T T1 T2 T3 = true ↔
      ((T = T1 ∧ T ≠ T2 ∧ T ≠ T3) ∨ (T = T2 ∧ T ≠ T1 ∧ T ≠ T3) ∨
        (T = T3 ∧ T ≠ T1 ∧ T ≠ T2)) := by
  unfold one_type
  by_cases h1 : T = T1 <;> by_cases h2 : T = T2 <;> by_cases h3 : T = T3 <;>
    simp [h1, h2, h3]
  tauto

/-- C4: for every starting pipeline state and every sequence of `push_back`
calls mixing the three types, `range_over` for slot `i` yields exactly the
values of the slot-`i` inserted elements, in their relative insertion order,
each passed through slot `i`'s current composed modifier, and (already by its
return type) never an element of the other two slots. -/
theorem C4_type_isolation {α β γ : Type}
    (mods0 : (i : Idx) → Idx.ty α β γ i → Idx.ty α β γ i)
    (vs : List (Var α β γ)) (i : Idx) :
    ((tri_list.mk [] mods0).pushAll vs).range_over i
      = (values_of_type i vs).map (mods0 i) := by
  rw [tri_list.range_over_eq, tri_list.pushAll_contents, tri_list.pushAll_mods]
  simp

/-- C5: the whole-collection traversal (`begin`/`end`) visits every element in
exact insertion order with its stored tag preserved, and projecting the
traversal onto any one slot `i` gives exactly `range_over i` — the traversal
is the interleaving of the three `range_over` results back into the original
insertion order. -/
theorem C5_traversal_is_interleaving {α β γ : Type} (l : tri_list α β γ) :
    (l.elems.map (fun v => v.1) = l.contents.map (fun v => v.1))
    ∧ (∀ i : Idx, values_of_type i l.elems = l.range_over i) := by
  constructor
  · show (l.contents.map l.deref).map (fun v => v.1) = _
    rw [List.map_map]
    rfl
  · intro i
    show (l.contents.map l.deref).filterMap (Var.getOpt i) = _
    rw [elems_filterMap, tri_list.range_over_eq]
    rfl

/-- C6: an empty pipeline is the identity — a freshly constructed collection
reads back the stored values unchanged — and `reset` for slot `i` after any
number of `modify_only` calls on that slot makes subsequent reads of slot-`i`
elements return the original stored values unchanged. -/
theorem C6_reset_restores_identity {α β γ : Type} (vs : List (Var α β γ))
    (i : Idx) (l : tri_list α β γ)
    (fs : List (Idx.ty α β γ i → Idx.ty α β γ i)) :
    ((tri_list.init α β γ).pushAll vs).range_over i = values_of_type i vs
    ∧ ((l.registerAll i fs).reset i).range_over i
        = values_of_type i l.contents := by
  constructor
  · rw [tri_list.range_over_eq, tri_list.pushAll_contents, tri_list.pushAll_mods]
    show (values_of_type i ([] ++ vs)).map identity = _
    rw [map_identity, List.nil_append]
  · rw [tri_list.range_over_eq, tri_list.reset_contents,
      tri_list.registerAll_contents, tri_list.reset_mods_self, map_identity]

/-- C7: cross-type non-interference — for distinct slots `j ≠ i`, calling
`modify_only` or `reset` on slot `i` changes neither slot `j`'s pipeline nor
any value observed through `range_over` for slot `j`. -/
theorem C7_cross_type_non_interference {α β γ : Type} (l : tri_list α β γ)
    (i j : Idx) (f : Idx.ty α β γ i → Idx.ty α β γ i) (h : j ≠ i) :
    ((l.modify_only i f).mods j = l.mods j)
    ∧ ((l.modify_only i f).range_over j = l.range_over j)
    ∧ ((l.reset i).mods j = l.mods j)
    ∧ ((l.reset i).range_over j = l.range_over j) := by
  refine ⟨tri_list.modify_only_mods_ne h f l, ?_, tri_list.reset_mods_ne h l, ?_⟩
  · rw [tri_list.range_over_eq, tri_list.range_over_eq,
      tri_list.modify_only_contents, tri_list.modify_only_mods_ne h]
  · rw [tri_list.range_over_eq, tri_list.range_over_eq,
      tri_list.reset_contents, tri_list.reset_mods_ne h]

/-- Witness for C7: on the sample list, modifying or resetting the first slot
leaves the second slot's pipeline and read results untouched. -/
theorem C7_witness :
    ((sample.modify_only Idx.i1 (fun n => n * 10)).mods Idx.i2
        = sample.mods Idx.i2)
    ∧ ((sample.modify_only Idx.i1 (fun n => n * 10)).range_over Idx.i2
        = sample.range_over Idx.i2)
    ∧ ((sample.reset Idx.i1).mods Idx.i2 = sample.mods Idx.i2)
    ∧ ((sample.reset Idx.i1).range_over Idx.i2 = sample.range_over Idx.i2) :=
  C7_cross_type_non_interference sample Idx.i1 Idx.i2 (fun n => n * 10)
    (by decide)

/-- C8: stored values are never edited in place — `modify_only` and `reset`
leave the `contents` sequence exactly unchanged, while `push_back` only
appends one tagged value at the end.  The read paths (`range_over`, `elems`)
are functions of the state and return their result without producing a new
state, so in this embedding they can mutate neither `contents` nor any
pipeline; the mutators' frame is what remains to check. -/
theorem C8_storage_immutable {α β γ : Type} (l : tri_list α β γ) (i : Idx)
    (f : Idx.ty α β γ i → Idx.ty α β γ i) (v : Idx.ty α β γ i) :
    ((l.modify_only i f).contents = l.contents)
    ∧ ((l.reset i).contents = l.contents)
    ∧ ((l.push_back i v).contents = l.contents ++ [⟨i, v⟩]) :=
  ⟨rfl, rfl, rfl⟩

/-- C9 counterexample: a triple with a duplicated type is not rejected at the
collection's definition.  The class template imposes no requirement on its
parameters (`tri_list_class_requires` is trivially satisfied even though the
triple `(0, 0, 1)` of type codes violates the spec's distinctness), and in the
embedding a collection with duplicated element types is constructible and
operable: pushing on the unique third slot succeeds, whose `one_type` check
passes, while `one_type` for the duplicated code is what fails — an error at
the operation, not at the definition. -/
theorem C9_counterexample :
    tri_list_class_requires (0 : Nat) 0 1
    ∧ distinct_triple (0 : Nat) 0 1 = false
    ∧ (((tri_list.init Nat Nat Bool).push_back Idx.i3 true).contents
        = [⟨Idx.i3, true⟩])
    ∧ one_type (1 : Nat) 0 0 1 = true
    ∧ one_type (0 : Nat) 0 0 1 = false :=
  ⟨trivial, by decide, rfl, by decide, by decide⟩

/-- C9 as amended: declaring a collection whose triple contains two equal
types is not rejected at definition time — the class template carries no
constraint — and the duplication is diagnosed only when an operation is
invoked: an operation on the duplicated type fails its `one_type` gate,
while an operation on the remaining unique type still passes. -/
theorem C9_duplicate_triple_amended {κ : Type} [DecidableEq κ]
    (T1 T2 T3 : κ) (hdup : T1 = T2) (hne : T3 ≠ T1) :
    tri_list_class_requires T1 T2 T3
    ∧ one_type T1 T1 T2 T3 = false
    ∧ one_type T3 T1 T2 T3 = true := by
  subst hdup
  refine ⟨trivial, ?_, ?_⟩
  · simp [one_type]
  · simp [one_type, hne]

/-- Witness for the amended C9 at the concrete duplicated triple of type
codes `(0, 0, 1)` over `Nat`. -/
theorem C9_amended_witness :
    tri_list_class_requires (0 : Nat) 0 1
    ∧ one_type (0 : Nat) 0 0 1 = false
    ∧ one_type (1 : Nat) 0 0 1 = true :=
  C9_duplicate_triple_amended 0 0 1 rfl (by decide)

/-- C10: `push_back` leaves all three modifier pipelines exactly unchanged,
so for every slot `j` a read after the push applies the same transformation
as before: `range_over j` returns its previous result, extended by the newly
pushed value (seen through slot `j`'s unchanged modifier) exactly when the
push was on slot `j`. -/
theorem C10_push_back_preserves_pipelines {α β γ : Type} (l : tri_list α β γ)
    (i : Idx) (v : Idx.ty α β γ i) (j : Idx) :
    ((l.push_back i v).mods j = l.mods j)
    ∧ ((l.push_back i v).range_over j
        = l.range_over j ++ ((Var.getOpt j ⟨i, v⟩).map (l.mods j)).toList) := by
  refine ⟨rfl, ?_⟩
  rw [tri_list.range_over_eq, tri_list.range_over_eq, tri_list.push_back_contents,
    tri_list.push_back_mods, values_of_type_append, values_of_type_singleton,
    List.map_append]
  cases hov : Var.getOpt j ⟨i, v⟩ <;> simp [hov]
